import Mathlib

/-!
Shallow embedding of the Report Ingestion and Case-Assembly Engine of
markus-moss (src/markusmoss/markusmoss.py), covering the Match Extractor
(_parse_html_report), the Report Merger (_copy_moss_report), the Case
Assembler (write_final_report with _copy_submission_files, _copy_file,
_write_case_report) and the moss_report_url accessor.

Python strings are modelled as Lean String, machine integers as Int/Nat,
exceptions as Except, and filesystem side effects as an explicit trace of
Effect values computed from an immutable environment snapshot.
-/

namespace MarkusMoss

/-- Whitespace class of Python regular expressions and of str.strip for the
ASCII range: space, tab, newline, carriage return, form feed, vertical tab. -/
def pyIsSpace (c : Char) : Bool :=
  c = ' ' || c = '\t' || c = '\n' || c = '\r' || c = '\x0c' || c = '\x0b'

/-- Python str.strip: drop leading and trailing whitespace. -/
def pyStrip (s : String) : String :=
  String.mk (((s.toList.dropWhile pyIsSpace).reverse.dropWhile pyIsSpace).reverse)

/-- Value of a list of decimal digit characters. -/
def digitsToNat (l : List Char) : Nat :=
  l.foldl (fun a c => a * 10 + (c.toNat - Char.toNat '0')) 0

/-- Python int(s) on a string with no surrounding whitespace: an optional
sign followed by a nonempty run of decimal digits. -/
def pyInt? (s : String) : Option Int :=
  let p : Int × List Char :=
    match s.toList with
    | '-' :: rest => (-1, rest)
    | '+' :: rest => (1, rest)
    | cs => (1, cs)
  if p.2 ≠ [] ∧ p.2.all Char.isDigit then some (p.1 * Int.ofNat (digitsToNat p.2)) else none

/-- os.path.basename: the part of the path after the last slash. -/
def basename (p : String) : String :=
  String.mk ((p.toList.reverse.takeWhile (· ≠ '/')).reverse)

/-- Drop an exact literal prefix from a character list, or fail. -/
def stripLit : List Char → List Char → Option (List Char)
  | [], s => some s
  | _ :: _, [] => none
  | a :: p, b :: s => if a = b then stripLit p s else none

/-- Test for a literal string prefix, by character list. -/
def strStartsWith (s p : String) : Bool :=
  (stripLit p.toList s.toList).isSome

/-- Test for a literal string suffix, by character list. -/
def strEndsWith (s p : String) : Bool :=
  (stripLit p.toList.reverse s.toList.reverse).isSome

/-- os.path.join for two components as used by the code: an absolute second
component wins, otherwise the parts are joined with a single slash. -/
def joinPath (a b : String) : String :=
  if strStartsWith b "/" then b
  else if strEndsWith a "/" ∨ a = "" then a ++ b
  else a ++ "/" ++ b

/-- Index of the last occurrence of a character in a list, if any. -/
def lastIdxOf (c : Char) (l : List Char) : Option Nat :=
  (List.range l.length).foldl (fun acc j => if l.get? j = some c then some j else acc) none

/-- os.path.splitext, first component: strip the extension beginning at the
last dot of the basename, unless every character before that dot inside the
basename is itself a dot (leading dots never start an extension). -/
def splitextBase (p : String) : String :=
  let bn := (basename p).toList
  match lastIdxOf '.' bn with
  | some j =>
      if (bn.take j).any (· ≠ '.') then
        String.mk (p.toList.take (p.toList.length - (bn.length - j)))
      else p
  | none => p

/-- Suffix part of the report-label pattern, one whitespace character then a
parenthesised nonempty digit run followed by a percent sign; re.match allows
trailing characters after the closing parenthesis. Returns the digit group. -/
def suffixPct : List Char → Option (List Char)
  | c :: '(' :: rest =>
      if pyIsSpace c then
        let ds := rest.takeWhile Char.isDigit
        if ds = [] then none
        else
          match rest.dropWhile Char.isDigit with
          | '%' :: ')' :: _ => some ds
          | _ => none
      else none
  | _ => none

/-- Greedy match of the tail of the report-label pattern: a dot-star group
(any characters except newline, longest first) followed by the percent
suffix. Returns the dot-star group and the digit group, mirroring the
backtracking order of the regular-expression engine. -/
def matchTail (acc : List Char) : List Char → Option (List Char × List Char)
  | [] =>
      match suffixPct [] with
      | some d => some (acc.reverse, d)
      | none => none
  | c :: rest =>
      match (if c ≠ '\n' then matchTail (c :: acc) rest else none) with
      | some res => some res
      | none =>
          match suffixPct (c :: rest) with
          | some d => some (acc.reverse, d)
          | none => none

/-- re.match of the report regex from _report_regex against a label.
The pattern is the literal submission-files directory name, a slash, a
nonempty group of non-slash characters, a slash, a dot-star group, one
whitespace character, and a parenthesised integer percentage. Returns the
three captured groups (group name, relative path, percent digits). -/
def reportRegexMatch (label : String) : Option (String × String × String) :=
  match stripLit ("submission_files/").toList label.toList with
  | none => none
  | some r1 =>
      let g := r1.takeWhile (· ≠ '/')
      if g = [] then none
      else
        match r1.dropWhile (· ≠ '/') with
        | '/' :: r3 =>
            match matchTail [] r3 with
            | some (m, d) => some (String.mk g, String.mk m, String.mk d)
            | none => none
        | _ => none

/-- One td cell of the index table as the extractor reads it: the href and
string of its first anchor when present, and the cell string used for the
matched-lines count. A missing component makes the corresponding Python
attribute access raise. -/
structure TdCell where
  href : Option String
  label : Option String
  text : Option String
deriving Repr, DecidableEq

/-- One tr row of the index table: whether the row contains any th cell, and
its td cells in order. -/
structure Row where
  hasTh : Bool
  tds : List TdCell
deriving Repr, DecidableEq

/-- Match record yielded by _parse_html_report: the path of the pair's detail
page inside the download directory, the two group names, the similarity
percent digit group (kept as a string, exactly as the code keeps the regex
group), and the matched-lines count. -/
structure MatchRecord where
  matchFile : String
  group1 : String
  group2 : String
  similarity : String
  matchedLines : Int
deriving Repr, DecidableEq

/-- Extraction failures of _parse_html_report, one per Python exception
site: tuple-unpacking a row whose td count is not three, a missing anchor,
href or string, an unparseable lines cell, and a label that the report
regex rejects. -/
inductive ExtractErr
  | cellCount (n : Nat)
  | noAnchor
  | badLines
  | labelMismatch
deriving Repr, DecidableEq

/-- Body of the extractor loop for a single non-header row, in the order the
code evaluates it: unpack the three td cells, resolve the match file from
the first cell's anchor href, parse the stripped lines cell as an integer,
then match both submission labels against the report regex. -/
def parseRowRec (downloadDir : String) (row : Row) : Except ExtractErr MatchRecord :=
  match row.tds with
  | [s1, s2, l] =>
      match s1.href with
      | none => .error .noAnchor
      | some href =>
          let matchFile := joinPath downloadDir (basename href)
          match l.text with
          | none => .error .badLines
          | some ltext =>
              match pyInt? (pyStrip ltext) with
              | none => .error .badLines
              | some ml =>
                  match s1.label with
                  | none => .error .noAnchor
                  | some lab1 =>
                      match reportRegexMatch lab1 with
                      | none => .error .labelMismatch
                      | some (g1, _, sim) =>
                          match s2.label with
                          | none => .error .noAnchor
                          | some lab2 =>
                              match reportRegexMatch lab2 with
                              | none => .error .labelMismatch
                              | some (g2, _, _) =>
                                  .ok ⟨matchFile, g1, g2, sim, ml⟩
  | tds => .error (.cellCount tds.length)

/-- _parse_html_report over the rows of the single results table: header
rows (rows containing a th cell) are skipped, every other row is parsed by
parseRowRec; the first failing row aborts extraction. -/
def parseHtmlReport (downloadDir : String) : List Row → Except ExtractErr (List MatchRecord)
  | [] => .ok []
  | r :: rs =>
      if r.hasTh then parseHtmlReport downloadDir rs
      else
        match parseRowRec downloadDir r with
        | .error e => .error e
        | .ok m =>
            match parseHtmlReport downloadDir rs with
            | .error e => .error e
            | .ok rest => .ok (m :: rest)

/-- Records of the non-header rows that parse successfully, one per row in
row order, used to state what a fully well-formed table extracts to. -/
def parsedRows (dd : String) (rows : List Row) : List MatchRecord :=
  rows.filterMap (fun r => if r.hasTh then none else (parseRowRec dd r).toOption)

/-- Anchor element as the merger sees it: optional href, name, id and target
attributes. The merger rewrites only anchor elements, so other body content
is carried verbatim and is not modelled. -/
structure Anchor where
  href : Option String
  nameAttr : Option String
  idAttr : Option String
  targetAttr : Option String
deriving Repr, DecidableEq

/-- Side detail document of a FramePair: its title and the anchors of its
body in document order. The merger never reads a side document's title. -/
structure SideDoc where
  title : String
  anchors : List Anchor
deriving Repr, DecidableEq

/-- Frame files the merger reads, keyed by path: the pair's base detail
document (title), the top navigation document (the anchors inside its
centered table), and the two side documents. -/
structure FrameStore where
  baseDocs : List (String × String)
  topDocs : List (String × List Anchor)
  sideDocs : List (String × SideDoc)
deriving Repr, DecidableEq

/-- Merger failures: a frame file that cannot be opened, a navigation anchor
without an href attribute, and an href the anchor regex rejects. Each is a
Python exception site in _copy_moss_report. -/
inductive MergeErr
  | missingFile (path : String)
  | navNoHref
  | anchorPatternFail (href : String)
deriving Repr, DecidableEq

/-- re.match of the anchor rewrite regex built from the base basename: the
literal basename, a dash, a single character 0 or 1, the literal dot html
hash, and a nonempty digit group; trailing characters are allowed. Returns
the side and the digit group. The code interpolates the basename into the
pattern verbatim; basenames free of regex metacharacters, the only ones the
service produces, make that a literal match. -/
def anchorPatMatch (baseBasename : String) (href : String) : Option (String × String) :=
  match stripLit (baseBasename.toList ++ ['-']) href.toList with
  | none => none
  | some r1 =>
      match r1 with
      | c :: r2 =>
          if c = '0' ∨ c = '1' then
            match stripLit (".html#").toList r2 with
            | none => none
            | some r3 =>
                let ds := r3.takeWhile Char.isDigit
                if ds = [] then none else some (String.mk [c], String.mk ds)
          else none
      | [] => none

/-- Rewritten href target for a matched side and match number. -/
def rewrittenHref (side num : String) : String :=
  "#match-" ++ side ++ "-" ++ num

/-- Rewrite of one navigation-table anchor: its href attribute is read
(raising when absent), its basename matched against the anchor regex
(raising when it fails), and the anchor retargeted at the in-page
identifier with target set to the current document. -/
def rewriteNavAnchor (baseBasename : String) (a : Anchor) : Except MergeErr Anchor :=
  match a.href with
  | none => .error .navNoHref
  | some h =>
      match anchorPatMatch baseBasename (basename h) with
      | none => .error (.anchorPatternFail h)
      | some (side, num) =>
          .ok { a with href := some (rewrittenHref side num), targetAttr := some "_self" }

/-- First conditional of the side-body anchor loop: if the anchor has a
nonempty href it is matched against the anchor regex as is (raising on
failure) and retargeted at the current document. -/
def rewriteSideHref (baseBasename : String) (a : Anchor) : Except MergeErr Anchor :=
  match a.href with
  | some h =>
      if h = "" then .ok a
      else
        match anchorPatMatch baseBasename h with
        | none => .error (.anchorPatternFail h)
        | some (side, num) =>
            .ok { a with href := some (rewrittenHref side num), targetAttr := some "_self" }
  | none => .ok a

/-- Rewrite of one side-body anchor for side i, the two sequential
conditionals of the loop body: the href rewrite, then, if the anchor has a
nonempty name, its id is set to the name prefixed with match-i-. -/
def rewriteSideAnchor (baseBasename : String) (side_i : String) (a : Anchor) :
    Except MergeErr Anchor :=
  match rewriteSideHref baseBasename a with
  | .error e => .error e
  | .ok a1 =>
      match a1.nameAttr with
      | some nm =>
          if nm = "" then .ok a1
          else .ok { a1 with idAttr := some ("match-" ++ side_i ++ "-" ++ nm) }
      | none => .ok a1

/-- Rewrite of every anchor of a document region in order, stopping at the
first failure, as the in-place mutation loops of the merger do. -/
def rewriteAll (f : Anchor → Except MergeErr Anchor) : List Anchor → Except MergeErr (List Anchor)
  | [] => .ok []
  | a :: rest =>
      match f a with
      | .error e => .error e
      | .ok b =>
          match rewriteAll f rest with
          | .error e => .error e
          | .ok bs => .ok (b :: bs)

/-- Merged document produced by the merger: the template with its title
replaced and the three regions filled with the rewritten navigation table
and the two rewritten side bodies. -/
structure MergedDoc where
  title : String
  topAnchors : List Anchor
  match0Anchors : List Anchor
  match1Anchors : List Anchor
deriving Repr, DecidableEq

/-- Lookup by key in an association list, used for frame files by path and
membership data by group name. -/
def alookup {α : Type} (l : List (String × α)) (p : String) : Option α :=
  match l.find? (fun e => e.1 = p) with
  | some e => some e.2
  | none => none

/-- _copy_moss_report as a pure document transformation: from the base
detail page path it derives the extensionless base and its basename, reads
the base document's title into the template, rewrites the navigation table
of the top frame, and for each side in 0, 1 rewrites that side's body
anchors; any missing frame file or rejected anchor is a hard error and no
document is produced. -/
def mergeReport (store : FrameStore) (baseHtmlFile : String) : Except MergeErr MergedDoc :=
  let base := splitextBase baseHtmlFile
  let bb := basename base
  match alookup store.baseDocs baseHtmlFile with
  | none => .error (.missingFile baseHtmlFile)
  | some title =>
      match alookup store.topDocs (base ++ "-top.html") with
      | none => .error (.missingFile (base ++ "-top.html"))
      | some navAnchors =>
          match rewriteAll (rewriteNavAnchor bb) navAnchors with
          | .error e => .error e
          | .ok topRw =>
              match alookup store.sideDocs (base ++ "-0.html") with
              | none => .error (.missingFile (base ++ "-0.html"))
              | some s0 =>
                  match rewriteAll (rewriteSideAnchor bb "0") s0.anchors with
                  | .error e => .error e
                  | .ok s0rw =>
                      match alookup store.sideDocs (base ++ "-1.html") with
                      | none => .error (.missingFile (base ++ "-1.html"))
                      | some s1 =>
                          match rewriteAll (rewriteSideAnchor bb "1") s1.anchors with
                          | .error e => .error e
                          | .ok s1rw => .ok ⟨title, topRw, s0rw, s1rw⟩

/-- Column headers of the overview table, OVERVIEW_INFO in the code. -/
def OVERVIEW_INFO : List String :=
  ["case", "groups", "similarity (%)", "matched_lines"]

/-- Column headers of the membership roster, USER_INFO in the code. -/
def USER_INFO : List String :=
  ["group_name", "user_name", "first_name", "last_name", "email", "id_number"]

/-- os.path.dirname: everything before the last slash, with trailing slashes
stripped unless the head consists only of slashes. -/
def dirname (p : String) : String :=
  let cs := p.toList
  let bnLen := (basename p).toList.length
  if bnLen = cs.length then ""
  else
    let head := cs.take (cs.length - bnLen)
    if head.all (· = '/') then String.mk head
    else String.mk ((head.reverse.dropWhile (· = '/')).reverse)

/-- Configuration of one run as the Case Assembler uses it: the work
directory, the assignment short identifier, and the force-overwrite flag. -/
structure Config where
  workdir : String
  markusAssignment : String
  force : Bool
deriving Repr, DecidableEq

/-- Path of submission_files under the work directory. -/
def submissionFilesDir (cfg : Config) : String :=
  joinPath cfg.workdir "submission_files"

/-- Path of pdf_submission_files under the work directory. -/
def pdfSubmissionFilesDir (cfg : Config) : String :=
  joinPath cfg.workdir "pdf_submission_files"

/-- Path of starter_files under the work directory. -/
def starterFilesDir (cfg : Config) : String :=
  joinPath cfg.workdir "starter_files"

/-- Path of final_report under the work directory. -/
def finalReportDir (cfg : Config) : String :=
  joinPath cfg.workdir "final_report"

/-- Path of the per-assignment report directory. -/
def assignmentReportDir (cfg : Config) : String :=
  joinPath (finalReportDir cfg) cfg.markusAssignment

/-- Immutable snapshot of the world the Case Assembler reads: existing
directories, existing files, the frame store of downloaded report pages,
the glob results under each group's submission tree as pairs of group name
and relative path, and the cached membership data per group. -/
structure Env where
  dirs : List String
  files : List String
  frames : FrameStore
  subFiles : List (String × String)
  membership : List (String × List (List String))
deriving Repr, DecidableEq

/-- Filesystem side effects of one Case Assembler run, in program order:
directory creation, the recursive starter-file copy, one overview table row
appended (the header is a row like any other, the file being opened once
and appended incrementally), the merged report written, one file copied,
one missing-source diagnostic on the error channel, and one roster file
written with a header and its data rows. -/
inductive Effect
  | mkdir (path : String)
  | copyStarterTree (src dst : String)
  | overviewRow (row : List String)
  | writeMerged (path : String) (doc : MergedDoc)
  | copyFile (src dst : String)
  | stderrNotFound (src : String)
  | writeRows (path : String) (header : List String) (rows : List (List String))
deriving Repr, DecidableEq

/-- Glob results for one group: the relative paths recorded for that group,
in glob order. -/
def globGroupFiles (env : Env) (group : String) : List String :=
  (env.subFiles.filter (fun e => e.1 = group)).map (fun e => e.2)

/-- _copy_file: shutil.copy wrapped so that a missing source file is
reported on the error channel instead of raising. -/
def copyFileEff (files : List String) (src dst : String) : List Effect :=
  if files.contains src then [Effect.copyFile src dst] else [Effect.stderrNotFound src]

/-- _copy_submission_files: for every glob result under the group's
submission tree, create the org and pdf destination directories, copy the
source file into the org subtree, and copy the previously rendered PDF into
the pdf subtree, each copy falling back to a diagnostic when its source is
absent. -/
def copySubmissionFiles (cfg : Config) (env : Env) (group destination : String) : List Effect :=
  (globGroupFiles env group).flatMap (fun rel =>
    let relFile := joinPath group rel
    let absFile := joinPath (submissionFilesDir cfg) relFile
    let absPdf := joinPath (pdfSubmissionFilesDir cfg) (relFile ++ ".pdf")
    let fileDest := joinPath destination (joinPath group (joinPath "org" rel))
    let pdfDest := joinPath destination (joinPath group (joinPath "pdf" (rel ++ ".pdf")))
    Effect.mkdir (dirname fileDest) :: Effect.mkdir (dirname pdfDest)
      :: (copyFileEff env.files absFile fileDest ++ copyFileEff env.files absPdf pdfDest))

/-- Membership rows of one group; a group absent from the cached membership
data yields the empty list, as the defaultdict does. -/
def membershipFor (env : Env) (group : String) : List (List String) :=
  match alookup env.membership group with
  | some rows => rows
  | none => []

/-- _write_case_report: for each group create its case subdirectory and
write the roster file with the fixed column header and that group's rows. -/
def writeCaseReport (env : Env) (groups : List String) (destination : String) : List Effect :=
  groups.flatMap (fun g =>
    [Effect.mkdir (joinPath destination g),
     Effect.writeRows (joinPath (joinPath destination g) "group_data.csv")
       USER_INFO (membershipFor env g)])

/-- Overview row written for one completed case. -/
def overviewRowFor (caseName : String) (r : MatchRecord) : List String :=
  [caseName, r.group1 ++ ";" ++ r.group2, r.similarity, toString r.matchedLines]

/-- Loop body of write_final_report over the extracted match records,
carrying the zero-based loop index: each iteration creates the case
directory, merges the report (a merge error propagates out of the loop,
ending the run with the effects performed so far), copies both groups'
submission files, writes the case roster, and appends the overview row. -/
def runCases (cfg : Config) (env : Env) (assignDir : String) :
    Nat → List MatchRecord → List Effect × Option MergeErr
  | _, [] => ([], none)
  | i, r :: rs =>
      let caseName := "case_" ++ toString (i + 1)
      let caseDir := joinPath assignDir caseName
      match mergeReport env.frames r.matchFile with
      | .error e => ([Effect.mkdir caseDir], some e)
      | .ok merged =>
          let eff := Effect.mkdir caseDir
            :: Effect.writeMerged (joinPath caseDir "moss.html") merged
            :: (copySubmissionFiles cfg env r.group1 caseDir
              ++ copySubmissionFiles cfg env r.group2 caseDir
              ++ writeCaseReport env [r.group1, r.group2] caseDir
              ++ [Effect.overviewRow (overviewRowFor caseName r)])
          let rest := runCases cfg env assignDir (i + 1) rs
          (eff ++ rest.1, rest.2)

/-- write_final_report: when the per-assignment report directory exists and
no force flag is set the whole action is skipped without side effects;
otherwise the directory is created, starter files are copied when present,
the overview header is written, and the extracted records are processed in
order. -/
def writeFinalReport (cfg : Config) (env : Env) (records : List MatchRecord) :
    List Effect × Option MergeErr :=
  let assignDir := assignmentReportDir cfg
  if env.dirs.contains assignDir && !cfg.force then ([], none)
  else
    let starterEff :=
      if env.dirs.contains (starterFilesDir cfg) then
        [Effect.copyStarterTree (starterFilesDir cfg) (joinPath assignDir "starter_files")]
      else []
    let body := runCases cfg env assignDir 0 records
    (Effect.mkdir assignDir :: (starterEff
      ++ Effect.overviewRow OVERVIEW_INFO :: body.1), body.2)

/-- Rows of the overview table among a run's effects, in write order. -/
def overviewOf (effects : List Effect) : List (List String) :=
  effects.filterMap (fun e =>
    match e with
    | Effect.overviewRow r => some r
    | _ => none)

/-- Memoized state behind the moss_report_url accessor: the value passed at
construction or resolved earlier, if any. -/
structure UrlState where
  cachedUrl : Option String
deriving Repr, DecidableEq

/-- moss_report_url accessor: a cached value is returned as is; otherwise
the url file's content, when the file exists, is read and stripped, a
truthy result being cached and returned and anything else raising. The
second argument is the content of the url file, or none when it does not
exist. -/
def mossReportUrlGet (st : UrlState) (fileContent : Option String) :
    Except Unit (String × UrlState) :=
  match st.cachedUrl with
  | some u => .ok (u, st)
  | none =>
      match fileContent with
      | some content =>
          let u := pyStrip content
          if u = "" then .error () else .ok (u, ⟨some u⟩)
      | none => .error ()

/-- Truth value of one record's merge step under an environment. -/
def mergeSucceeds (env : Env) (r : MatchRecord) : Bool :=
  match mergeReport env.frames r.matchFile with
  | .ok _ => true
  | .error _ => false

/-- Overview rows the assembler writes for consecutive completed cases
starting at zero-based loop index i. -/
def ovRows (i : Nat) : List MatchRecord → List (List String)
  | [] => []
  | r :: rs => overviewRowFor ("case_" ++ toString (i + 1)) r :: ovRows (i + 1) rs

/-- Numeric value of a record's similarity percent digit group. -/
def simPercentNat (r : MatchRecord) : Nat :=
  digitsToNat r.similarity.toList

/-- Statement that a merged navigation region honours the anchor scheme:
every input link whose target basename matches the pattern appears in the
output rewritten to the in-page identifier with target set to the current
document. -/
def navRegionOk (bb : String) (input output : List Anchor) : Prop :=
  ∀ a ∈ input, ∀ hr side num, a.href = some hr →
    anchorPatMatch bb (basename hr) = some (side, num) →
    ∃ b ∈ output, b.href = some (rewrittenHref side num) ∧ b.targetAttr = some "_self"

/-- Statement that a merged side region honours the anchor scheme: every
named jump target of the input body has an output element carrying the
prefixed identifier, and every input link whose target matches the pattern
appears rewritten and retargeted in the output. -/
def sideRegionOk (bb sideIdx : String) (input output : List Anchor) : Prop :=
  (∀ a ∈ input, ∀ n, a.nameAttr = some n → n ≠ "" →
    ∃ b ∈ output, b.idAttr = some ("match-" ++ sideIdx ++ "-" ++ n)) ∧
  (∀ a ∈ input, ∀ hr side num, a.href = some hr →
    anchorPatMatch bb hr = some (side, num) →
    ∃ b ∈ output, b.href = some (rewrittenHref side num) ∧ b.targetAttr = some "_self")

/-- Header row of the index table, skipped by the extractor. -/
def headerRow : Row := ⟨true, []⟩

/-- Data row of the specification's end-to-end scenario. -/
def exampleRow : Row :=
  ⟨false,
   [⟨some "http://moss/results/123/match0.html", some "submission_files/teamA/main.c (83%)", none⟩,
    ⟨some "http://moss/results/123/match0.html", some "submission_files/teamB/main.c (83%)", none⟩,
    ⟨none, none, some "47"⟩]⟩

/-- Record the extractor yields for the end-to-end scenario row against the
download directory dl. -/
def exampleRec : MatchRecord := ⟨"dl/match0.html", "teamA", "teamB", "83", 47⟩

/-- Data row that the label grammar accepts although its percent exceeds one
hundred and its lines cell holds a negative integer. -/
def c5row : Row :=
  ⟨false,
   [⟨some "match1.html", some "submission_files/gA/f.c (150%)", none⟩,
    ⟨some "match1.html", some "submission_files/gB/f.c (150%)", none⟩,
    ⟨none, none, some "-5"⟩]⟩

/-- Record the extractor yields for that row. -/
def c5rec : MatchRecord := ⟨"dl/match1.html", "gA", "gB", "150", -5⟩

/-- Non-header row with two td cells, malformed for the table shape. -/
def badCountRow : Row := ⟨false, [⟨none, none, none⟩, ⟨none, none, none⟩]⟩

/-- Frame store whose base frameset document and side zero document carry
different titles. -/
def c7store : FrameStore :=
  ⟨[("dl/m0.html", "Base Frameset Title")],
   [("dl/m0-top.html", [])],
   [("dl/m0-0.html", ⟨"Side Zero Title", []⟩), ("dl/m0-1.html", ⟨"Side One Title", []⟩)]⟩

/-- Merged document the merger produces from that store. -/
def c7merged : MergedDoc := ⟨"Base Frameset Title", [], [], []⟩

/-- Frame store holding a complete set of frame files for the detail page
dl slash m2.html and nothing for dl slash m1.html. -/
def c1frames : FrameStore :=
  ⟨[("dl/m2.html", "Title Two")],
   [("dl/m2-top.html", [])],
   [("dl/m2-0.html", ⟨"s0", []⟩), ("dl/m2-1.html", ⟨"s1", []⟩)]⟩

/-- Configuration of the aborted-run scenario. -/
def c1cfg : Config := ⟨"w", "a1", false⟩

/-- Environment of the aborted-run scenario: fresh output tree, complete
frames for the second record's detail page only. -/
def c1env : Env := ⟨[], [], c1frames, [], []⟩

/-- First match record of the scenario; its frame files are missing. -/
def c1r1 : MatchRecord := ⟨"dl/m1.html", "gA", "gB", "10", 5⟩

/-- Second match record of the scenario; its frame files are all present. -/
def c1r2 : MatchRecord := ⟨"dl/m2.html", "gC", "gD", "20", 7⟩

/-- Merged document of the second record, were it processed. -/
def c1merged2 : MergedDoc := ⟨"Title Two", [], [], []⟩

/-- Configuration of the idempotence scenario. -/
def c2cfg : Config := ⟨"w", "a1", false⟩

/-- Environment in which the assignment report directory and its first case
directory already exist. -/
def c2env : Env := ⟨["w/final_report/a1", "w/final_report/a1/case_1"], [], ⟨[], [], []⟩, [], []⟩

/-- Frame store exercising every rewrite of the merger: a navigation link, a
side link that is also a jump target, and a bare jump target. -/
def c6store : FrameStore :=
  ⟨[("dl/m0.html", "Matches for teamA and teamB")],
   [("dl/m0-top.html", [⟨some "http://moss/m0-0.html#2", none, none, none⟩])],
   [("dl/m0-0.html", ⟨"t0", [⟨some "m0-1.html#3", some "2", none, none⟩]⟩),
    ("dl/m0-1.html", ⟨"t1", [⟨none, some "3", none, none⟩]⟩)]⟩

/-- Merged document the merger produces from that store: the navigation
link and the side link rewritten to the in-page scheme and retargeted, and
both jump targets given prefixed identifiers. -/
def c6merged : MergedDoc :=
  ⟨"Matches for teamA and teamB",
   [⟨some "#match-0-2", none, none, some "_self"⟩],
   [⟨some "#match-1-3", some "2", some "match-0-2", some "_self"⟩],
   [⟨none, some "3", some "match-1-3", none⟩]⟩

/-- Environment of the missing-PDF scenario: one submission file for group
gA whose rendered PDF is absent, complete frames for the record's page. -/
def c9env : Env :=
  ⟨[], ["w/submission_files/gA/main.c"], c1frames, [("gA", "main.c")],
   [("gA", [["gA", "u1", "First", "Last", "e@x", "7"]])]⟩

/-- Match record of the missing-PDF scenario. -/
def c9rec : MatchRecord := ⟨"dl/m2.html", "gA", "gB", "20", 7⟩

/-- C10: with no construction-supplied value, the accessor reads the url
file when it exists and its stripped content is nonempty, caching and
returning that stripped content; a missing file or an empty stripped
content raises; a cached value is returned unchanged regardless of the
file, so no reread occurs. -/
theorem moss_report_url_fallback (st : UrlState) (fc : Option String)
    (hnone : st.cachedUrl = none) :
    (∀ c, fc = some c → pyStrip c ≠ "" →
      mossReportUrlGet st fc = .ok (pyStrip c, ⟨some (pyStrip c)⟩)) ∧
    (∀ c, fc = some c → pyStrip c = "" → mossReportUrlGet st fc = .error ()) ∧
    (fc = none → mossReportUrlGet st fc = .error ()) ∧
    (∀ u fc2, mossReportUrlGet ⟨some u⟩ fc2 = .ok (u, ⟨some u⟩)) := by
  obtain ⟨cu⟩ := st
  cases hnone
  refine ⟨?_, ?_, ?_, ?_⟩
  · intro c hc hne
    subst hc
    simp [mossReportUrlGet, hne]
  · intro c hc he
    subst hc
    simp [mossReportUrlGet, he]
  · intro hc
    subst hc
    simp [mossReportUrlGet]
  · intro u fc2
    simp [mossReportUrlGet]

/-- C10 witness: the accessor at concrete states, resolving a padded file
content, rejecting blank and missing files, and serving the cache. -/
theorem moss_report_url_fallback_witness :
    mossReportUrlGet ⟨none⟩ (some " http-url ") = .ok ("http-url", ⟨some "http-url"⟩) ∧
    mossReportUrlGet ⟨none⟩ (some "  ") = .error () ∧
    mossReportUrlGet ⟨none⟩ none = .error () ∧
    mossReportUrlGet ⟨some "http-url"⟩ none = .ok ("http-url", ⟨some "http-url"⟩) := by
  refine ⟨?_, ?_, ?_, ?_⟩
  · exact (moss_report_url_fallback ⟨none⟩ (some " http-url ") rfl).1 " http-url " rfl (by decide)
  · exact (moss_report_url_fallback ⟨none⟩ (some "  ") rfl).2.1 "  " rfl (by decide)
  · exact (moss_report_url_fallback ⟨none⟩ none rfl).2.2.1 rfl
  · exact (moss_report_url_fallback ⟨none⟩ none rfl).2.2.2 "http-url" none

/-- C2: when a case directory of the assignment report tree exists, the
filesystem invariant that a directory's parent also exists places the
assignment report directory on disk, so with the force flag off
write_final_report skips entirely and performs no side effects. -/
theorem existing_case_dir_skips_run (cfg : Config) (env : Env)
    (records : List MatchRecord) (caseName : String)
    (hforce : cfg.force = false)
    (hcase : env.dirs.contains (joinPath (assignmentReportDir cfg) caseName) = true)
    (hparent : env.dirs.contains (joinPath (assignmentReportDir cfg) caseName) = true →
      env.dirs.contains (assignmentReportDir cfg) = true) :
    writeFinalReport cfg env records = ([], none) := by
  have h := hparent hcase
  have hmem : assignmentReportDir cfg ∈ env.dirs := by simpa using h
  simp [writeFinalReport, hmem, hforce]

/-- C2 witness: a rerun against a tree already holding case_1 of assignment
a1 performs no effect at all. -/
theorem existing_case_dir_skips_run_witness :
    writeFinalReport c2cfg c2env [c1r1] = ([], none) :=
  existing_case_dir_skips_run c2cfg c2env [c1r1] "case_1" rfl (by decide) (by decide)

/-- C7 counterexample: the merger copies the title of the base frameset
document, not the side zero document; on a store whose two titles differ
the produced title is the base one. -/
theorem merged_title_cx :
    mergeReport c7store "dl/m0.html" = .ok c7merged ∧
    alookup c7store.sideDocs "dl/m0-0.html" = some ⟨"Side Zero Title", []⟩ ∧
    c7merged.title = "Base Frameset Title" ∧
    c7merged.title ≠ "Side Zero Title" := by
  refine ⟨rfl, rfl, rfl, by decide⟩

/-- C7 amended: the title element of the produced merged document equals
the title of the FramePair's base detail document, the one the match file
reference denotes directly. -/
theorem merged_title_from_base_doc (store : FrameStore) (bfile : String)
    (merged : MergedDoc) (title : String)
    (h : mergeReport store bfile = .ok merged)
    (hbase : alookup store.baseDocs bfile = some title) :
    merged.title = title := by
  simp only [mergeReport] at h
  rw [hbase] at h
  iterate 8 (all_goals try split at h)
  all_goals try simp_all
  subst h
  rfl

/-- C7 amended witness: the merged title at the concrete store equals the
base frameset title. -/
theorem merged_title_from_base_doc_witness : c7merged.title = "Base Frameset Title" :=
  merged_title_from_base_doc c7store "dl/m0.html" c7merged "Base Frameset Title" rfl rfl

/-- C1 counterexample: on a fresh tree with two match records whose first
merge fails on a missing frame file while the second record's merge would
succeed, the run stops with the error after creating the first case
directory: the second record is never processed and the overview table
holds no row at all beyond the header. -/
theorem one_case_error_stops_run_cx :
    writeFinalReport c1cfg c1env [c1r1, c1r2] =
      ([Effect.mkdir "w/final_report/a1",
        Effect.overviewRow OVERVIEW_INFO,
        Effect.mkdir "w/final_report/a1/case_1"],
       some (MergeErr.missingFile "dl/m1.html")) ∧
    mergeReport c1env.frames c1r2.matchFile = .ok c1merged2 ∧
    overviewOf (writeFinalReport c1cfg c1env [c1r1, c1r2]).1 = [OVERVIEW_INFO] := by
  refine ⟨rfl, rfl, rfl⟩

/-- C5 counterexample: the extractor accepts the label grammar with any
digit run, so a well-formed row reporting one hundred fifty percent and a
negative matched-lines cell yields a record violating both claimed
bounds. -/
theorem similarity_bounds_cx :
    parseRowRec "dl" c5row = .ok c5rec ∧
    100 < simPercentNat c5rec ∧
    c5rec.matchedLines < 0 := by
  refine ⟨rfl, by decide, by decide⟩

/-- Digit group returned by the percent suffix matcher is a nonempty run of
decimal digits. -/
theorem suffixPct_digits (r ds : List Char) (h : suffixPct r = some ds) :
    ds ≠ [] ∧ ds.all Char.isDigit = true := by
  simp only [suffixPct] at h
  repeat' split at h
  all_goals try exact Option.noConfusion h
  simp only [Option.some.injEq] at h
  subst h
  refine ⟨by assumption, ?_⟩
  exact List.all_eq_true.mpr (fun c hc => List.mem_takeWhile_imp hc)

/-- Digit group returned by the greedy tail matcher is a nonempty run of
decimal digits. -/
theorem matchTail_digits (r : List Char) : ∀ acc m ds, matchTail acc r = some (m, ds) →
    ds ≠ [] ∧ ds.all Char.isDigit = true := by
  induction r with
  | nil =>
      intro acc m ds h
      simp [matchTail, suffixPct] at h
  | cons c rest ih =>
      intro acc m ds h
      simp only [matchTail] at h
      split at h
      · next res heq =>
          simp only [Option.some.injEq] at h
          subst h
          split at heq
          · exact ih _ _ _ heq
          · exact absurd heq (by simp)
      · split at h
        · next d2 heq =>
            simp only [Option.some.injEq, Prod.mk.injEq] at h
            obtain ⟨h1, h2⟩ := h
            subst h2
            exact suffixPct_digits _ _ heq
        · exact absurd h (by simp)

/-- Third captured group of the report regex is a nonempty run of decimal
digits. -/
theorem reportRegexMatch_digits (lab g m d : String)
    (h : reportRegexMatch lab = some (g, m, d)) :
    d.toList ≠ [] ∧ d.toList.all Char.isDigit = true := by
  simp only [reportRegexMatch] at h
  repeat' split at h
  all_goals try exact Option.noConfusion h
  simp only [Option.some.injEq, Prod.mk.injEq] at h
  obtain ⟨h1, h2, h3⟩ := h
  subst h3
  obtain ⟨hne, hall⟩ := matchTail_digits _ _ _ _ (by assumption)
  exact ⟨hne, hall⟩

/-- C5 amended: for every well-formed data row the extracted record's
similarity percent is exactly the label's digit group, a nonempty run of
decimal digits and hence a non-negative integer, with no upper bound
enforced; the matched-lines field is the integer value of the lines cell
with its sign. The witness instantiates the claim's concrete teamA and
teamB row. -/
theorem similarity_digit_group (dd : String) (row : Row) (r : MatchRecord)
    (h : parseRowRec dd row = .ok r) :
    r.similarity.toList ≠ [] ∧ r.similarity.toList.all Char.isDigit = true := by
  unfold parseRowRec at h
  iterate 9 (all_goals try split at h)
  all_goals try exact Except.noConfusion h
  cases h
  exact reportRegexMatch_digits _ _ _ _ (by assumption)

/-- C5 amended witness: the record of the end-to-end scenario row carries
the digit group eighty three. -/
theorem similarity_digit_group_witness :
    exampleRec.similarity.toList ≠ [] ∧
    exampleRec.similarity.toList.all Char.isDigit = true :=
  similarity_digit_group "dl" exampleRow exampleRec rfl

/-- C3: an index table whose every row either is a header row or parses
successfully extracts to exactly the records of its non-header rows, one
record per row in row order, header rows contributing nothing. -/
theorem extractor_yields_all_rows (dd : String) (rows : List Row)
    (h : ∀ r ∈ rows, r.hasTh = true ∨ ∃ m, parseRowRec dd r = .ok m) :
    parseHtmlReport dd rows = .ok (parsedRows dd rows) ∧
    (parsedRows dd rows).length = (rows.filter (fun r => !r.hasTh)).length := by
  induction rows with
  | nil => exact ⟨rfl, rfl⟩
  | cons r rs ih =>
      obtain ⟨h1, h2⟩ := ih (fun x hx => h x (List.mem_cons_of_mem _ hx))
      rcases h r (List.mem_cons_self _ _) with hth | ⟨m, hm⟩
      · constructor
        · simp [parseHtmlReport, parsedRows, List.filterMap_cons, hth, h1]
        · simpa [parsedRows, List.filterMap_cons, List.filter_cons, hth] using h2
      · by_cases hth : r.hasTh = true
        · constructor
          · simp [parseHtmlReport, parsedRows, List.filterMap_cons, hth, h1]
          · simpa [parsedRows, List.filterMap_cons, List.filter_cons, hth] using h2
        · have hth' : r.hasTh = false := by simpa using hth
          constructor
          · simp [parseHtmlReport, parsedRows, List.filterMap_cons, hth', hm, h1,
              Except.toOption]
          · simpa [parsedRows, List.filterMap_cons, List.filter_cons, hth', hm,
              Except.toOption] using h2

/-- C3 witness: a header row followed by the scenario data row extracts to
exactly one record. -/
theorem extractor_yields_all_rows_witness :
    parseHtmlReport "dl" [headerRow, exampleRow] =
      .ok (parsedRows "dl" [headerRow, exampleRow]) ∧
    (parsedRows "dl" [headerRow, exampleRow]).length =
      ([headerRow, exampleRow].filter (fun r => !r.hasTh)).length :=
  extractor_yields_all_rows "dl" [headerRow, exampleRow] (by
    intro r hr
    simp only [List.mem_cons, List.not_mem_nil, or_false] at hr
    rcases hr with rfl | rfl
    · exact Or.inl rfl
    · exact Or.inr ⟨exampleRec, rfl⟩)

/-- Malformed non-header row makes the extractor loop body fail: a td count
other than three falls to the unpacking error, and a submission label the
report regex rejects is reached before any record is produced. -/
theorem parseRowRec_error_of_malformed (dd : String) (bad : Row)
    (hbad : bad.tds.length ≠ 3 ∨
      ∃ s1 s2 l, bad.tds = [s1, s2, l] ∧
        ((∀ s, s1.label = some s → reportRegexMatch s = none) ∨
         (∀ s, s2.label = some s → reportRegexMatch s = none))) :
    ∃ e, parseRowRec dd bad = .error e := by
  rcases hbad with hlen | ⟨s1, s2, l, htds, hlab⟩
  · unfold parseRowRec
    rcases htds : bad.tds with _ | ⟨a, _ | ⟨b, _ | ⟨c, _ | ⟨x, t⟩⟩⟩⟩
    · exact ⟨_, rfl⟩
    · exact ⟨_, rfl⟩
    · exact ⟨_, rfl⟩
    · exact absurd (by simp [htds]) hlen
    · exact ⟨_, rfl⟩
  · unfold parseRowRec
    rw [htds]
    rcases hlab with hl | hl
    all_goals {
      repeat' split
      all_goals try exact ⟨_, rfl⟩
      all_goals simp_all
    }

/-- C4: a table holding a malformed non-header row after any run of rows
that are headers or parse successfully makes the whole extraction fail
with an error; no record is produced for the malformed row. -/
theorem malformed_row_aborts_extraction (dd : String) (pre rest : List Row) (bad : Row)
    (hpre : ∀ r ∈ pre, r.hasTh = true ∨ ∃ m, parseRowRec dd r = .ok m)
    (hth : bad.hasTh = false)
    (hbad : bad.tds.length ≠ 3 ∨
      ∃ s1 s2 l, bad.tds = [s1, s2, l] ∧
        ((∀ s, s1.label = some s → reportRegexMatch s = none) ∨
         (∀ s, s2.label = some s → reportRegexMatch s = none))) :
    ∃ e, parseHtmlReport dd (pre ++ bad :: rest) = .error e := by
  obtain ⟨e0, he0⟩ := parseRowRec_error_of_malformed dd bad hbad
  induction pre with
  | nil => exact ⟨e0, by simp [parseHtmlReport, hth, he0]⟩
  | cons r rs ih =>
      obtain ⟨e, he⟩ := ih (fun x hx => hpre x (List.mem_cons_of_mem _ hx))
      rcases hpre r (List.mem_cons_self _ _) with h1 | ⟨m, hm⟩
      · exact ⟨e, by simp [parseHtmlReport, h1, he]⟩
      · by_cases hthr : r.hasTh = true
        · exact ⟨e, by simp [parseHtmlReport, hthr, he]⟩
        · have hthr' : r.hasTh = false := by simpa using hthr
          exact ⟨e, by simp [parseHtmlReport, hthr', hm, he]⟩

/-- C4 witness: the scenario data row followed by a two-cell row aborts
extraction. -/
theorem malformed_row_aborts_extraction_witness :
    ∃ e, parseHtmlReport "dl" ([exampleRow] ++ badCountRow :: []) = .error e :=
  malformed_row_aborts_extraction "dl" [exampleRow] [] badCountRow
    (by
      intro r hr
      simp only [List.mem_singleton] at hr
      subst hr
      exact Or.inr ⟨exampleRec, rfl⟩)
    rfl
    (Or.inl (by decide))

/-- Rewriting a whole region succeeds exactly when every anchor rewrites,
pointwise in order. -/
theorem rewriteAll_forall2 (f : Anchor → Except MergeErr Anchor) :
    ∀ (l l2 : List Anchor), rewriteAll f l = .ok l2 →
      List.Forall₂ (fun a b => f a = .ok b) l l2 := by
  intro l
  induction l with
  | nil =>
      intro l2 h
      cases h
      exact List.Forall₂.nil
  | cons a rest ih =>
      intro l2 h
      unfold rewriteAll at h
      split at h
      · exact Except.noConfusion h
      · split at h
        · exact Except.noConfusion h
        · cases h
          exact List.Forall₂.cons (by assumption) (ih _ (by assumption))

/-- Pointwise relation holding along two lists yields, for every member of
the first, a related member of the second. -/
theorem forall2_mem_exists {α β : Type} {R : α → β → Prop} :
    ∀ {l : List α} {l2 : List β}, List.Forall₂ R l l2 →
      ∀ {a : α}, a ∈ l → ∃ b ∈ l2, R a b := by
  intro l l2 h
  induction h with
  | nil => intro a ha; cases ha
  | cons hR _ ih =>
      intro a ha
      rcases List.mem_cons.mp ha with rfl | ha
      · exact ⟨_, List.mem_cons_self _ _, hR⟩
      · obtain ⟨b, hb, hRb⟩ := ih ha
        exact ⟨b, List.mem_cons_of_mem _ hb, hRb⟩

/-- Literal prefix stripping from the empty list fails for a nonempty
prefix. -/
theorem stripLit_nil (p : List Char) (hp : p ≠ []) : stripLit p [] = none := by
  cases p with
  | nil => exact absurd rfl hp
  | cons c t => rfl

/-- Anchor pattern never matches the empty href. -/
theorem anchorPatMatch_empty (bb : String) : anchorPatMatch bb "" = none := by
  unfold anchorPatMatch
  rw [show ("" : String).toList = [] from rfl, stripLit_nil _ (by simp)]

/-- Navigation anchor rewriting, on success, turns a matching href into the
in-page identifier and retargets the anchor at the current document. -/
theorem rewriteNavAnchor_href (bb : String) (a b : Anchor)
    (h : rewriteNavAnchor bb a = .ok b) (hr side num : String)
    (hh : a.href = some hr)
    (hm : anchorPatMatch bb (basename hr) = some (side, num)) :
    b.href = some (rewrittenHref side num) ∧ b.targetAttr = some "_self" := by
  simp only [rewriteNavAnchor, hh, hm] at h
  cases h
  exact ⟨rfl, rfl⟩

/-- Href rewriting preserves the name and id attributes of an anchor. -/
theorem rewriteSideHref_name_id (bb : String) (a a1 : Anchor)
    (h : rewriteSideHref bb a = .ok a1) :
    a1.nameAttr = a.nameAttr ∧ a1.idAttr = a.idAttr := by
  unfold rewriteSideHref at h
  iterate 4 (all_goals try split at h)
  all_goals try exact Except.noConfusion h
  all_goals cases h
  all_goals exact ⟨rfl, rfl⟩

/-- Href rewriting turns a matching href into the in-page identifier and
retargets the anchor at the current document. -/
theorem rewriteSideHref_href (bb : String) (a a1 : Anchor) (hr side num : String)
    (h : rewriteSideHref bb a = .ok a1)
    (hh : a.href = some hr)
    (hm : anchorPatMatch bb hr = some (side, num)) :
    a1.href = some (rewrittenHref side num) ∧ a1.targetAttr = some "_self" := by
  have hrne : hr ≠ "" := by
    intro he
    rw [he, anchorPatMatch_empty] at hm
    exact Option.noConfusion hm
  simp only [rewriteSideHref, hh, hrne, if_false, hm] at h
  cases h
  exact ⟨rfl, rfl⟩

/-- Side anchor rewriting, on success, gives every nonempty jump-target
name the prefixed element identifier. -/
theorem rewriteSideAnchor_id_of_name (bb si : String) (a b : Anchor)
    (h : rewriteSideAnchor bb si a = .ok b) (n : String)
    (hn : a.nameAttr = some n) (hne : n ≠ "") :
    b.idAttr = some ("match-" ++ si ++ "-" ++ n) := by
  unfold rewriteSideAnchor at h
  rcases hs : rewriteSideHref bb a with e | a1
  · simp only [hs] at h
    exact Except.noConfusion h
  · simp only [hs] at h
    obtain ⟨hname, _⟩ := rewriteSideHref_name_id bb a a1 hs
    simp only [hname, hn, hne, if_false] at h
    cases h
    rfl

/-- Side anchor rewriting, on success, turns a matching nonempty href into
the in-page identifier and retargets the anchor at the current document. -/
theorem rewriteSideAnchor_href (bb si : String) (a b : Anchor)
    (h : rewriteSideAnchor bb si a = .ok b) (hr side num : String)
    (hh : a.href = some hr)
    (hm : anchorPatMatch bb hr = some (side, num)) :
    b.href = some (rewrittenHref side num) ∧ b.targetAttr = some "_self" := by
  unfold rewriteSideAnchor at h
  rcases hs : rewriteSideHref bb a with e | a1
  · simp only [hs] at h
    exact Except.noConfusion h
  · simp only [hs] at h
    have hh1 := rewriteSideHref_href bb a a1 hr side num hs hh hm
    rcases hn : a1.nameAttr with _ | nm <;> simp only [hn] at h
    · cases h
      exact hh1
    · split at h
      · cases h
        exact hh1
      · cases h
        exact ⟨hh1.1, hh1.2⟩

/-- C6: when a merge succeeds, the top navigation region rewrites each
matching link to the in-page identifier scheme with target set to the
current document, and each side region both rewrites its matching links
the same way and gives every nonempty named jump target the element
identifier prefixed with its side. -/
theorem merged_anchor_scheme (store : FrameStore) (bfile : String) (merged : MergedDoc)
    (h : mergeReport store bfile = .ok merged) :
    (∀ tdoc, alookup store.topDocs (splitextBase bfile ++ "-top.html") = some tdoc →
        navRegionOk (basename (splitextBase bfile)) tdoc merged.topAnchors) ∧
    (∀ sdoc, alookup store.sideDocs (splitextBase bfile ++ "-0.html") = some sdoc →
        sideRegionOk (basename (splitextBase bfile)) "0" sdoc.anchors merged.match0Anchors) ∧
    (∀ sdoc, alookup store.sideDocs (splitextBase bfile ++ "-1.html") = some sdoc →
        sideRegionOk (basename (splitextBase bfile)) "1" sdoc.anchors merged.match1Anchors) := by
  simp only [mergeReport] at h
  rcases hb : alookup store.baseDocs bfile with _ | ttl <;> simp only [hb] at h
  · exact Except.noConfusion h
  rcases htop : alookup store.topDocs (splitextBase bfile ++ "-top.html")
    with _ | nav <;> simp only [htop] at h
  · exact Except.noConfusion h
  rcases hnav : rewriteAll (rewriteNavAnchor (basename (splitextBase bfile))) nav
    with e | topRw <;> simp only [hnav] at h
  · exact Except.noConfusion h
  rcases hs0 : alookup store.sideDocs (splitextBase bfile ++ "-0.html")
    with _ | s0 <;> simp only [hs0] at h
  · exact Except.noConfusion h
  rcases hr0 : rewriteAll (rewriteSideAnchor (basename (splitextBase bfile)) "0") s0.anchors
    with e | rw0 <;> simp only [hr0] at h
  · exact Except.noConfusion h
  rcases hs1 : alookup store.sideDocs (splitextBase bfile ++ "-1.html")
    with _ | s1 <;> simp only [hs1] at h
  · exact Except.noConfusion h
  rcases hr1 : rewriteAll (rewriteSideAnchor (basename (splitextBase bfile)) "1") s1.anchors
    with e | rw1 <;> simp only [hr1] at h
  · exact Except.noConfusion h
  cases h
  refine ⟨?_, ?_, ?_⟩
  · intro tdoc htd
    injection htd with htd
    subst htd
    intro a ha hr side num hhref hmatch
    obtain ⟨b, hbmem, hfb⟩ := forall2_mem_exists (rewriteAll_forall2 _ _ _ hnav) ha
    exact ⟨b, hbmem, rewriteNavAnchor_href _ _ _ hfb _ _ _ hhref hmatch⟩
  · intro sdoc hsd
    injection hsd with hsd
    subst hsd
    constructor
    · intro a ha n hn hne
      obtain ⟨b, hbmem, hfb⟩ := forall2_mem_exists (rewriteAll_forall2 _ _ _ hr0) ha
      exact ⟨b, hbmem, rewriteSideAnchor_id_of_name _ _ _ _ hfb n hn hne⟩
    · intro a ha hr side num hhref hmatch
      obtain ⟨b, hbmem, hfb⟩ := forall2_mem_exists (rewriteAll_forall2 _ _ _ hr0) ha
      exact ⟨b, hbmem, rewriteSideAnchor_href _ _ _ _ hfb _ _ _ hhref hmatch⟩
  · intro sdoc hsd
    injection hsd with hsd
    subst hsd
    constructor
    · intro a ha n hn hne
      obtain ⟨b, hbmem, hfb⟩ := forall2_mem_exists (rewriteAll_forall2 _ _ _ hr1) ha
      exact ⟨b, hbmem, rewriteSideAnchor_id_of_name _ _ _ _ hfb n hn hne⟩
    · intro a ha hr side num hhref hmatch
      obtain ⟨b, hbmem, hfb⟩ := forall2_mem_exists (rewriteAll_forall2 _ _ _ hr1) ha
      exact ⟨b, hbmem, rewriteSideAnchor_href _ _ _ _ hfb _ _ _ hhref hmatch⟩

/-- C6 witness: the anchor scheme holds of the concrete merge exercising a
navigation link, a side link that is also a jump target, and a bare jump
target. -/
theorem merged_anchor_scheme_witness :
    (∀ tdoc, alookup c6store.topDocs (splitextBase "dl/m0.html" ++ "-top.html") = some tdoc →
        navRegionOk (basename (splitextBase "dl/m0.html")) tdoc c6merged.topAnchors) ∧
    (∀ sdoc, alookup c6store.sideDocs (splitextBase "dl/m0.html" ++ "-0.html") = some sdoc →
        sideRegionOk (basename (splitextBase "dl/m0.html")) "0" sdoc.anchors c6merged.match0Anchors) ∧
    (∀ sdoc, alookup c6store.sideDocs (splitextBase "dl/m0.html" ++ "-1.html") = some sdoc →
        sideRegionOk (basename (splitextBase "dl/m0.html")) "1" sdoc.anchors c6merged.match1Anchors) :=
  merged_anchor_scheme c6store "dl/m0.html" c6merged rfl

/-- Overview projection distributes over effect concatenation. -/
theorem overviewOf_append (l1 l2 : List Effect) :
    overviewOf (l1 ++ l2) = overviewOf l1 ++ overviewOf l2 :=
  List.filterMap_append l1 l2 _

/-- Overview projection ignores a directory creation. -/
theorem overviewOf_cons_mkdir (p : String) (l : List Effect) :
    overviewOf (Effect.mkdir p :: l) = overviewOf l := rfl

/-- Overview projection ignores a merged-report write. -/
theorem overviewOf_cons_writeMerged (p : String) (m : MergedDoc) (l : List Effect) :
    overviewOf (Effect.writeMerged p m :: l) = overviewOf l := rfl

/-- Overview projection keeps an overview row. -/
theorem overviewOf_cons_row (r : List String) (l : List Effect) :
    overviewOf (Effect.overviewRow r :: l) = r :: overviewOf l := rfl

/-- Overview projection ignores a starter-tree copy. -/
theorem overviewOf_cons_starter (s d : String) (l : List Effect) :
    overviewOf (Effect.copyStarterTree s d :: l) = overviewOf l := rfl

/-- Overview projection of no effects. -/
theorem overviewOf_nil : overviewOf [] = [] := rfl

/-- Membership in a wrapped copy is either the copy with an existing source
or the missing-source diagnostic. -/
theorem mem_copyFileEff (files : List String) (s d : String) (e : Effect)
    (h : e ∈ copyFileEff files s d) :
    (e = Effect.copyFile s d ∧ files.contains s = true) ∨ e = Effect.stderrNotFound s := by
  unfold copyFileEff at h
  split at h <;> simp_all

/-- Submission copying writes no overview row. -/
theorem overviewOf_copySubmissionFiles (cfg : Config) (env : Env) (g d : String) :
    overviewOf (copySubmissionFiles cfg env g d) = [] := by
  unfold overviewOf
  rw [List.filterMap_eq_nil_iff]
  intro e he
  unfold copySubmissionFiles at he
  rw [List.mem_flatMap] at he
  obtain ⟨rel, _, he⟩ := he
  simp only [List.mem_cons, List.mem_append] at he
  rcases he with rfl | rfl | he | he
  · rfl
  · rfl
  · rcases mem_copyFileEff _ _ _ _ he with ⟨rfl, _⟩ | rfl <;> rfl
  · rcases mem_copyFileEff _ _ _ _ he with ⟨rfl, _⟩ | rfl <;> rfl

/-- Roster writing writes no overview row. -/
theorem overviewOf_writeCaseReport (env : Env) (groups : List String) (d : String) :
    overviewOf (writeCaseReport env groups d) = [] := by
  unfold overviewOf
  rw [List.filterMap_eq_nil_iff]
  intro e he
  unfold writeCaseReport at he
  rw [List.mem_flatMap] at he
  obtain ⟨g, _, he⟩ := he
  simp only [List.mem_cons, List.not_mem_nil, or_false] at he
  rcases he with rfl | rfl <;> rfl

/-- Merge success of one record unfolds to an available merged document. -/
theorem mergeSucceeds_true_iff (env : Env) (r : MatchRecord) :
    mergeSucceeds env r = true ↔ ∃ m, mergeReport env.frames r.matchFile = .ok m := by
  constructor
  · intro h
    unfold mergeSucceeds at h
    split at h
    · next m heq => exact ⟨m, heq⟩
    · exact absurd h (by simp)
  · rintro ⟨m, hm⟩
    simp only [mergeSucceeds, hm]

/-- Overview rows of the case loop starting at any index: one row per
record of the longest prefix whose merges succeed, in encounter order. -/
theorem runCases_overview (cfg : Config) (env : Env) (d : String) :
    ∀ (recs : List MatchRecord) (i : Nat),
      overviewOf (runCases cfg env d i recs).1 =
        ovRows i (recs.takeWhile (mergeSucceeds env)) := by
  intro recs
  induction recs with
  | nil => intro i; rfl
  | cons r rs ih =>
      intro i
      rcases hm : mergeReport env.frames r.matchFile with e | merged
      · have hms : mergeSucceeds env r = false := by simp only [mergeSucceeds, hm]
        simp only [runCases, hm, List.takeWhile_cons, hms]
        rfl
      · have hms : mergeSucceeds env r = true := by simp only [mergeSucceeds, hm]
        simp only [runCases, hm, List.takeWhile_cons, hms]
        simp only [overviewOf_cons_mkdir, overviewOf_cons_writeMerged, overviewOf_append,
          overviewOf_copySubmissionFiles, overviewOf_writeCaseReport, overviewOf_cons_row,
          overviewOf_nil, List.nil_append, List.append_nil, if_true, ovRows]
        rw [ih (i + 1)]
        simp

/-- Error slot of the case loop is empty exactly when every record's merge
succeeds. -/
theorem runCases_err_none (cfg : Config) (env : Env) (d : String) :
    ∀ (recs : List MatchRecord) (i : Nat),
      ((runCases cfg env d i recs).2 = none ↔
        ∀ x ∈ recs, mergeSucceeds env x = true) := by
  intro recs
  induction recs with
  | nil => intro i; simp [runCases]
  | cons r rs ih =>
      intro i
      rcases hm : mergeReport env.frames r.matchFile with e | merged
      · have hms : mergeSucceeds env r = false := by simp only [mergeSucceeds, hm]
        simp only [runCases, hm]
        simp [List.forall_mem_cons, hms]
      · have hms : mergeSucceeds env r = true := by simp only [mergeSucceeds, hm]
        simp only [runCases, hm]
        simp [List.forall_mem_cons, hms, ih (i + 1)]

/-- Effects of a run that is not skipped: the assignment directory, the
optional starter copy, the overview header, then the case loop. -/
theorem writeFinalReport_effects (cfg : Config) (env : Env) (records : List MatchRecord)
    (hrun : (env.dirs.contains (assignmentReportDir cfg) && !cfg.force) = false) :
    (writeFinalReport cfg env records).1 =
      Effect.mkdir (assignmentReportDir cfg)
        :: ((if env.dirs.contains (starterFilesDir cfg) then
              [Effect.copyStarterTree (starterFilesDir cfg)
                (joinPath (assignmentReportDir cfg) "starter_files")]
            else [])
          ++ Effect.overviewRow OVERVIEW_INFO
            :: (runCases cfg env (assignmentReportDir cfg) 0 records).1) := by
  simp only [writeFinalReport, hrun, Bool.false_eq_true, if_false]

/-- Error slot of a run that is not skipped is the case loop's error
slot. -/
theorem writeFinalReport_err (cfg : Config) (env : Env) (records : List MatchRecord)
    (hrun : (env.dirs.contains (assignmentReportDir cfg) && !cfg.force) = false) :
    (writeFinalReport cfg env records).2 =
      (runCases cfg env (assignmentReportDir cfg) 0 records).2 := by
  simp only [writeFinalReport, hrun, Bool.false_eq_true, if_false]

/-- Overview table of a run that is not skipped: the header row first, then
one row per completed case in encounter order. -/
theorem writeFinalReport_overview (cfg : Config) (env : Env) (records : List MatchRecord)
    (hrun : (env.dirs.contains (assignmentReportDir cfg) && !cfg.force) = false) :
    overviewOf (writeFinalReport cfg env records).1 =
      OVERVIEW_INFO :: ovRows 0 (records.takeWhile (mergeSucceeds env)) := by
  rw [writeFinalReport_effects cfg env records hrun]
  rcases hst : env.dirs.contains (starterFilesDir cfg)
  · simp only [hst, Bool.false_eq_true, if_false, List.nil_append, overviewOf_cons_mkdir,
      overviewOf_cons_row, runCases_overview]
  · simp only [hst, if_true, overviewOf_cons_mkdir, List.singleton_append,
      overviewOf_cons_starter, overviewOf_cons_row, runCases_overview]

/-- Longest true-prefix of a list whose front elements all satisfy the
predicate and whose next element fails it. -/
theorem takeWhile_all_fail {α : Type} (p : α → Bool) (pre post : List α) (r : α)
    (hpre : ∀ x ∈ pre, p x = true) (hr : p r = false) :
    (pre ++ r :: post).takeWhile p = pre := by
  induction pre with
  | nil => simp [List.takeWhile_cons, hr]
  | cons a rest ih =>
      have ha := hpre a (List.mem_cons_self _ _)
      simp [List.takeWhile_cons, ha,
        ih (fun x hx => hpre x (List.mem_cons_of_mem _ hx))]

/-- C8: for every run that is not skipped by the idempotence guard, the
overview table begins with the header row (case, groups, similarity (%),
matched_lines) followed by exactly one data row per completed case in
match-record encounter order; the row of the case at zero-based loop index
i is (case_<i+1>, the two group names joined by a semicolon, the
similarity percent, the matched-lines count), as the ovRows and
overviewRowFor definitions spell out. -/
theorem overview_header_and_rows (cfg : Config) (env : Env) (records : List MatchRecord)
    (hrun : (env.dirs.contains (assignmentReportDir cfg) && !cfg.force) = false) :
    overviewOf (writeFinalReport cfg env records).1 =
      OVERVIEW_INFO :: ovRows 0 (records.takeWhile (mergeSucceeds env)) :=
  writeFinalReport_overview cfg env records hrun

/-- C8 witness: the single-record run of the missing-PDF scenario writes
the header and one data row. -/
theorem overview_header_and_rows_witness :
    overviewOf (writeFinalReport c1cfg c9env [c9rec]).1 =
      OVERVIEW_INFO :: ovRows 0 ([c9rec].takeWhile (mergeSucceeds c9env)) :=
  overview_header_and_rows c1cfg c9env [c9rec] rfl

/-- C1 amended: a hard error while assembling one case aborts the whole
run, not just that case: with every record before the failing one merging
successfully, the run ends in the error and the overview table holds the
header and rows exactly for the cases before the failure; records after
the failing one are never processed and get no row, complete or not. -/
theorem one_case_error_aborts_run (cfg : Config) (env : Env)
    (pre post : List MatchRecord) (r : MatchRecord)
    (hrun : (env.dirs.contains (assignmentReportDir cfg) && !cfg.force) = false)
    (hpre : ∀ p ∈ pre, mergeSucceeds env p = true)
    (hfail : mergeSucceeds env r = false) :
    (writeFinalReport cfg env (pre ++ r :: post)).2.isSome = true ∧
    overviewOf (writeFinalReport cfg env (pre ++ r :: post)).1 =
      OVERVIEW_INFO :: ovRows 0 pre := by
  constructor
  · rw [writeFinalReport_err cfg env _ hrun]
    rcases h2 : (runCases cfg env (assignmentReportDir cfg) 0 (pre ++ r :: post)).2 with _ | e
    · exfalso
      have hall := (runCases_err_none cfg env (assignmentReportDir cfg) _ 0).mp h2
      have := hall r (by simp)
      rw [hfail] at this
      exact Bool.noConfusion this
    · rfl
  · rw [writeFinalReport_overview cfg env _ hrun,
      takeWhile_all_fail (mergeSucceeds env) pre post r hpre hfail]

/-- C1 amended witness: the two-record scenario whose first merge fails
ends in an error with an overview holding only the header. -/
theorem one_case_error_aborts_run_witness :
    (writeFinalReport c1cfg c1env ([] ++ c1r1 :: [c1r2])).2.isSome = true ∧
    overviewOf (writeFinalReport c1cfg c1env ([] ++ c1r1 :: [c1r2])).1 =
      OVERVIEW_INFO :: ovRows 0 [] :=
  one_case_error_aborts_run c1cfg c1env [] [c1r2] c1r1 rfl
    (by intro p hp; cases hp) rfl

/-- Relative paths recorded for a group appear among its glob results. -/
theorem mem_globGroupFiles (env : Env) (g rel : String)
    (h : (g, rel) ∈ env.subFiles) : rel ∈ globGroupFiles env g := by
  unfold globGroupFiles
  exact List.mem_map.mpr ⟨(g, rel), List.mem_filter.mpr ⟨h, by simp⟩, rfl⟩

/-- Submission copying copies a group file whose source exists into the
org subtree of the case. -/
theorem mem_copySubmissionFiles_org (cfg : Config) (env : Env) (g dest rel : String)
    (hrel : (g, rel) ∈ env.subFiles)
    (horg : env.files.contains (joinPath (submissionFilesDir cfg) (joinPath g rel)) = true) :
    Effect.copyFile (joinPath (submissionFilesDir cfg) (joinPath g rel))
      (joinPath dest (joinPath g (joinPath "org" rel)))
      ∈ copySubmissionFiles cfg env g dest := by
  unfold copySubmissionFiles
  rw [List.mem_flatMap]
  have horg2 : joinPath (submissionFilesDir cfg) (joinPath g rel) ∈ env.files := by
    simpa using horg
  refine ⟨rel, mem_globGroupFiles env g rel hrel, ?_⟩
  simp [copyFileEff, horg2]

/-- Submission copying reports a group file whose rendered PDF is absent on
the error channel. -/
theorem mem_copySubmissionFiles_pdfmiss (cfg : Config) (env : Env) (g dest rel : String)
    (hrel : (g, rel) ∈ env.subFiles)
    (hpdf : env.files.contains
      (joinPath (pdfSubmissionFilesDir cfg) (joinPath g rel ++ ".pdf")) = false) :
    Effect.stderrNotFound (joinPath (pdfSubmissionFilesDir cfg) (joinPath g rel ++ ".pdf"))
      ∈ copySubmissionFiles cfg env g dest := by
  unfold copySubmissionFiles
  rw [List.mem_flatMap]
  have hpdf2 : joinPath (pdfSubmissionFilesDir cfg) (joinPath g rel ++ ".pdf") ∉ env.files := by
    simpa using hpdf
  refine ⟨rel, mem_globGroupFiles env g rel hrel, ?_⟩
  simp [copyFileEff, hpdf2]

/-- Roster writing writes each listed group's roster file. -/
theorem mem_writeCaseReport (env : Env) (groups : List String) (dest g : String)
    (hg : g ∈ groups) :
    Effect.writeRows (joinPath (joinPath dest g) "group_data.csv") USER_INFO
      (membershipFor env g) ∈ writeCaseReport env groups dest := by
  unfold writeCaseReport
  rw [List.mem_flatMap]
  exact ⟨g, hg, by simp⟩

/-- Every copy effect the wrapped copy emits has its recorded source among
the existing files. -/
theorem copyFile_src_of_mem_copyFileEff (files : List String) (s0 d0 s d : String)
    (h : Effect.copyFile s d ∈ copyFileEff files s0 d0) :
    s = s0 ∧ files.contains s0 = true := by
  unfold copyFileEff at h
  split at h <;> simp_all

/-- Every copy effect of submission copying has an existing source. -/
theorem copyFile_src_of_mem_copySub (cfg : Config) (env : Env) (g dest s d : String)
    (h : Effect.copyFile s d ∈ copySubmissionFiles cfg env g dest) :
    env.files.contains s = true := by
  unfold copySubmissionFiles at h
  rw [List.mem_flatMap] at h
  obtain ⟨rel, _, h⟩ := h
  simp only [List.mem_cons, List.mem_append] at h
  rcases h with h | h | h | h
  · exact absurd h (by simp)
  · exact absurd h (by simp)
  · obtain ⟨rfl, hc⟩ := copyFile_src_of_mem_copyFileEff _ _ _ _ _ h
    exact hc
  · obtain ⟨rfl, hc⟩ := copyFile_src_of_mem_copyFileEff _ _ _ _ _ h
    exact hc

/-- Roster writing emits no copy effect. -/
theorem copyFile_not_mem_writeCaseReport (env : Env) (groups : List String) (dest s d : String) :
    Effect.copyFile s d ∉ writeCaseReport env groups dest := by
  intro h
  unfold writeCaseReport at h
  rw [List.mem_flatMap] at h
  obtain ⟨g, _, h⟩ := h
  simp at h

/-- Case loop on a single record whose merge succeeds: the full effect list
of one completed case, ending with its overview row, and no error. -/
theorem runCases_single_ok (cfg : Config) (env : Env) (d : String) (i : Nat)
    (r : MatchRecord) (merged : MergedDoc)
    (hm : mergeReport env.frames r.matchFile = .ok merged) :
    runCases cfg env d i [r] =
      (Effect.mkdir (joinPath d ("case_" ++ toString (i + 1)))
        :: Effect.writeMerged
            (joinPath (joinPath d ("case_" ++ toString (i + 1))) "moss.html") merged
        :: (copySubmissionFiles cfg env r.group1 (joinPath d ("case_" ++ toString (i + 1)))
          ++ copySubmissionFiles cfg env r.group2 (joinPath d ("case_" ++ toString (i + 1)))
          ++ writeCaseReport env [r.group1, r.group2]
              (joinPath d ("case_" ++ toString (i + 1)))
          ++ [Effect.overviewRow (overviewRowFor ("case_" ++ toString (i + 1)) r)]),
       none) := by
  simp only [runCases, hm]
  simp

/-- C9: in a run assembling one case, a group file whose rendered PDF is
absent is not fatal: the missing PDF source is reported on the error
channel, no copy with that source is performed, and the case still gets
its org copy of the file, its roster file, and its overview row, with the
run ending error-free. -/
theorem missing_pdf_nonfatal (cfg : Config) (env : Env) (r : MatchRecord) (rel : String)
    (hrun : (env.dirs.contains (assignmentReportDir cfg) && !cfg.force) = false)
    (hmerge : mergeSucceeds env r = true)
    (hfile : (r.group1, rel) ∈ env.subFiles)
    (horg : env.files.contains
      (joinPath (submissionFilesDir cfg) (joinPath r.group1 rel)) = true)
    (hpdf : env.files.contains
      (joinPath (pdfSubmissionFilesDir cfg) (joinPath r.group1 rel ++ ".pdf")) = false) :
    Effect.stderrNotFound
        (joinPath (pdfSubmissionFilesDir cfg) (joinPath r.group1 rel ++ ".pdf"))
      ∈ (writeFinalReport cfg env [r]).1 ∧
    Effect.copyFile (joinPath (submissionFilesDir cfg) (joinPath r.group1 rel))
        (joinPath (joinPath (assignmentReportDir cfg) "case_1")
          (joinPath r.group1 (joinPath "org" rel)))
      ∈ (writeFinalReport cfg env [r]).1 ∧
    (∀ dst, Effect.copyFile
        (joinPath (pdfSubmissionFilesDir cfg) (joinPath r.group1 rel ++ ".pdf")) dst
      ∉ (writeFinalReport cfg env [r]).1) ∧
    Effect.writeRows
        (joinPath (joinPath (joinPath (assignmentReportDir cfg) "case_1") r.group1)
          "group_data.csv") USER_INFO (membershipFor env r.group1)
      ∈ (writeFinalReport cfg env [r]).1 ∧
    Effect.overviewRow (overviewRowFor "case_1" r) ∈ (writeFinalReport cfg env [r]).1 ∧
    (writeFinalReport cfg env [r]).2 = none := by
  obtain ⟨merged, hm⟩ := (mergeSucceeds_true_iff env r).mp hmerge
  have hrc := runCases_single_ok cfg env (assignmentReportDir cfg) 0 r merged hm
  have hcase : ("case_" ++ toString (0 + 1) : String) = "case_1" := rfl
  rw [hcase] at hrc
  have heff := writeFinalReport_effects cfg env [r] hrun
  rw [hrc] at heff
  refine ⟨?_, ?_, ?_, ?_, ?_, ?_⟩
  · rw [heff]
    have hmem := mem_copySubmissionFiles_pdfmiss cfg env r.group1
      (joinPath (assignmentReportDir cfg) "case_1") rel hfile hpdf
    simp [List.mem_cons, List.mem_append, hmem]
  · rw [heff]
    have hmem := mem_copySubmissionFiles_org cfg env r.group1
      (joinPath (assignmentReportDir cfg) "case_1") rel hfile horg
    simp [List.mem_cons, List.mem_append, hmem]
  · intro dst hmemb
    have pdfsrc : ∀ g : String,
        Effect.copyFile (joinPath (pdfSubmissionFilesDir cfg) (joinPath r.group1 rel ++ ".pdf"))
          dst ∈ copySubmissionFiles cfg env g (joinPath (assignmentReportDir cfg) "case_1") →
        False := by
      intro g h2
      have hc := copyFile_src_of_mem_copySub _ _ _ _ _ _ h2
      rw [hpdf] at hc
      exact Bool.noConfusion hc
    rw [heff] at hmemb
    rcases hst : env.dirs.contains (starterFilesDir cfg)
    all_goals rw [hst] at hmemb
    all_goals simp only [List.mem_cons, List.mem_append, List.mem_singleton,
      List.not_mem_nil, or_false, false_or, Bool.false_eq_true, Bool.true_eq_false,
      if_false, if_true, reduceCtorEq, or_assoc] at hmemb
    all_goals rcases hmemb with h | h | h
    · exact pdfsrc _ h
    · exact pdfsrc _ h
    · exact copyFile_not_mem_writeCaseReport _ _ _ _ _ h
    · exact pdfsrc _ h
    · exact pdfsrc _ h
    · exact copyFile_not_mem_writeCaseReport _ _ _ _ _ h
  · rw [heff]
    have hmem := mem_writeCaseReport env [r.group1, r.group2]
      (joinPath (assignmentReportDir cfg) "case_1") r.group1 (by simp)
    simp [List.mem_cons, List.mem_append, hmem]
  · rw [heff]
    simp [List.mem_cons, List.mem_append]
  · rw [writeFinalReport_err cfg env [r] hrun, hrc]

/-- C9 witness: the concrete missing-PDF scenario shows the diagnostic, the
org copy, the skipped PDF copy, the roster, the overview row, and the
error-free end of the run. -/
theorem missing_pdf_nonfatal_witness :
    Effect.stderrNotFound
        (joinPath (pdfSubmissionFilesDir c1cfg) (joinPath c9rec.group1 "main.c" ++ ".pdf"))
      ∈ (writeFinalReport c1cfg c9env [c9rec]).1 ∧
    Effect.copyFile (joinPath (submissionFilesDir c1cfg) (joinPath c9rec.group1 "main.c"))
        (joinPath (joinPath (assignmentReportDir c1cfg) "case_1")
          (joinPath c9rec.group1 (joinPath "org" "main.c")))
      ∈ (writeFinalReport c1cfg c9env [c9rec]).1 ∧
    (∀ dst, Effect.copyFile
        (joinPath (pdfSubmissionFilesDir c1cfg) (joinPath c9rec.group1 "main.c" ++ ".pdf")) dst
      ∉ (writeFinalReport c1cfg c9env [c9rec]).1) ∧
    Effect.writeRows
        (joinPath (joinPath (joinPath (assignmentReportDir c1cfg) "case_1") c9rec.group1)
          "group_data.csv") USER_INFO (membershipFor c9env c9rec.group1)
      ∈ (writeFinalReport c1cfg c9env [c9rec]).1 ∧
    Effect.overviewRow (overviewRowFor "case_1" c9rec) ∈ (writeFinalReport c1cfg c9env [c9rec]).1 ∧
    (writeFinalReport c1cfg c9env [c9rec]).2 = none :=
  missing_pdf_nonfatal c1cfg c9env c9rec "main.c" rfl rfl (by simp [c9env, c9rec]) rfl rfl

end MarkusMoss
